import Mathlib

/-!
Shallow embedding of the `http_log_console` repository (Go sources under
`src/`), covering the parts exercised by the frozen claims:

* `src/workers.go` — `CircularCounter` (sliding-window counter),
  `StatsWorker` (per-interval statistics rollup), `AlarmWorker`
  (threshold alarm detector), `sortMapByValue`;
* `src/main.go` — the dispatch loop fanning hits out to both workers.

Modelling conventions:
* Go machine integers are modelled as `Int` (values that Go stores in
  `int` and that the code can make negative) or `Nat` (counts that only
  ever grow from zero, and nanosecond clock readings, which come from a
  monotonic clock); no arithmetic here approaches overflow, so no
  explicit `% 2^64` is carried.
* The Go monotonic clock (`Clocker.Now()`) is passed explicitly as a
  `now : Nat` argument (nanoseconds) to every operation that reads it,
  exactly as the repository's own tests do with their `FakeClocker`.
* A Go map `map[string]int` is modelled as an association list with
  unique keys; the list order stands for one possible (unspecified) Go
  map iteration order.
* Formatted output lines are modelled structurally by the `Line` and
  `Alert` inductives, one constructor per `fmt.Sprintf` template in the
  source, carrying the interpolated values.
* Slice accesses `b[i]` are mirrored twice: a total version using
  `List.set`/`List.getD` (meaningful when the index is in range), and a
  `Checked` version returning `none` exactly where the Go program would
  panic (index out of range, or `%`/`/` by zero).
-/

set_option maxRecDepth 100000

namespace HttpLogConsole

/-- Hit from `src/main.go`: one parsed access-log record.  The
`timestamp` field is carried by the Go struct but never read by any
worker, so it is omitted from the embedding. -/
structure Hit where
  method : List Char
  uri : List Char
  status : Int
  deriving Repr, DecidableEq

/-- One second in nanoseconds (`uint64(time.Second)` in Go). -/
def nanosPerSecond : Nat := 1000000000

/-- CircularCounter from `src/workers.go`: per-second buckets, the
cursor into them, and the nanosecond time of the last advance. -/
structure CircularCounter where
  buckets : List Int
  currentIndex : Nat
  currentTime : Nat
  deriving Repr, DecidableEq

/-- NewCircularCounter from `src/workers.go`: `window` zeroed buckets,
cursor 0, base time = the clock's current reading.  The Go constructor
performs no validation of `window`. -/
def NewCircularCounter (window : Nat) (now : Nat) : CircularCounter :=
  { buckets := List.replicate window 0
    currentIndex := 0
    currentTime := now }

/-- Zeroing loop of `CircularCounter.Forward`:
`for i := start; i <= start+steps; i++ { c.buckets[i%len(c.buckets)] = 0 }`.
Note the loop bound is inclusive, so it runs `steps + 1` times. -/
def zeroLoop (buckets : List Int) (start steps : Nat) : List Int :=
  (List.range' start (steps + 1)).foldl (fun b i => b.set (i % b.length) 0) buckets

/-- CircularCounter.Forward from `src/workers.go`.  `steps` is the whole
number of elapsed seconds; `steps = 0` is a no-op; otherwise `steps` is
clamped to the bucket count, the zeroing loop runs, and the cursor and
last-advance time move up.  Faithful for `c.currentTime ≤ now`, the
invariant a monotonic clock provides (Go computes the same `steps` via
wrap-free `uint64` subtraction there). -/
def CircularCounter.Forward (c : CircularCounter) (now : Nat) : CircularCounter :=
  let steps := (now - c.currentTime) / nanosPerSecond
  if steps = 0 then c
  else
    let steps := min steps c.buckets.length
    { buckets := zeroLoop c.buckets (c.currentIndex + 1) steps
      currentIndex := (c.currentIndex + steps) % c.buckets.length
      currentTime := now }

/-- CircularCounter.Add from `src/workers.go`: `Forward`, then add `v`
to the bucket at the cursor. -/
def CircularCounter.Add (c : CircularCounter) (v : Int) (now : Nat) : CircularCounter :=
  let c := c.Forward now
  { c with buckets := c.buckets.set c.currentIndex (c.buckets.getD c.currentIndex 0 + v) }

/-- CircularCounter.Sum from `src/workers.go`: `Forward`, then the sum
of all buckets.  Returns the sum together with the updated state. -/
def CircularCounter.Sum (c : CircularCounter) (now : Nat) : Int × CircularCounter :=
  let c := c.Forward now
  (c.buckets.foldl (· + ·) 0, c)

/-- Checked modulo: `none` exactly where Go would panic with a
division-by-zero on `i % len`. -/
def modChecked (a b : Nat) : Option Nat :=
  if b = 0 then none else some (a % b)

/-- Checked slice write: `none` exactly where Go would panic with an
index-out-of-range on `b[i] = v`. -/
def setChecked (l : List Int) (i : Nat) (v : Int) : Option (List Int) :=
  if i < l.length then some (l.set i v) else none

/-- Checked slice read. -/
def getChecked (l : List Int) (i : Nat) : Option Int :=
  l.get? i

/-- Checked form of the `Forward` zeroing loop: every `i % len` and
every `b[_] = 0` is bounds-checked. -/
def zeroLoopChecked (buckets : List Int) (start steps : Nat) : Option (List Int) :=
  (List.range' start (steps + 1)).foldlM
    (fun b i => do
      let j ← modChecked i b.length
      setChecked b j 0)
    buckets

/-- Checked form of `CircularCounter.Forward`. -/
def CircularCounter.ForwardChecked (c : CircularCounter) (now : Nat) :
    Option CircularCounter := do
  let steps := (now - c.currentTime) / nanosPerSecond
  if steps = 0 then
    return c
  else
    let steps := min steps c.buckets.length
    let b ← zeroLoopChecked c.buckets (c.currentIndex + 1) steps
    let idx ← modChecked (c.currentIndex + steps) c.buckets.length
    return { buckets := b, currentIndex := idx, currentTime := now }

/-- Checked form of `CircularCounter.Add`. -/
def CircularCounter.AddChecked (c : CircularCounter) (v : Int) (now : Nat) :
    Option CircularCounter := do
  let c ← c.ForwardChecked now
  let old ← getChecked c.buckets c.currentIndex
  let b ← setChecked c.buckets c.currentIndex (old + v)
  return { c with buckets := b }

/-- Checked form of `CircularCounter.Sum`. -/
def CircularCounter.SumChecked (c : CircularCounter) (now : Nat) :
    Option (Int × CircularCounter) := do
  let c ← c.ForwardChecked now
  return (c.buckets.foldl (· + ·) 0, c)

/-- Well-formedness of a counter state: at least one bucket and the
cursor in range.  `NewCircularCounter` establishes it for `window ≥ 1`
and every operation preserves it. -/
def CircularCounter.wf (c : CircularCounter) : Prop :=
  c.buckets ≠ [] ∧ c.currentIndex < c.buckets.length

instance (c : CircularCounter) : Decidable c.wf := by
  unfold CircularCounter.wf; infer_instance

/-! ### StatsWorker (`src/workers.go`) -/

/-- Section-key extraction performed in the `hit := <-s.in` branch of
`NewStatsWorker`: the Go code matches the URI against the regular
expression `^(?:/([^/]+)/)` and uses capture group 1, defaulting to
`"/"` when there is no match.  The regular expression matches exactly
when the URI starts with `/`, followed by one or more non-`/`
characters, followed by another `/`; the capture group is that maximal
run of non-`/` characters. -/
def extractSection (uri : List Char) : List Char :=
  match uri with
  | [] => ['/']
  | c :: rest =>
    if c = '/' then
      let seg := rest.takeWhile (fun ch => ch != '/')
      if seg ≠ [] ∧ seg.length < rest.length then seg else ['/']
    else ['/']

/-- Go map increment `m[k] += 1` on the association-list model: bump the
existing entry, or append a fresh one with count 1. -/
def incrKey (m : List (List Char × Nat)) (k : List Char) : List (List Char × Nat) :=
  match m with
  | [] => [(k, 1)]
  | (k₀, v) :: t => if k₀ = k then (k₀, v + 1) :: t else (k₀, v) :: incrKey t k

/-- Go map `delete(m, k)` on the association-list model (keys are
unique, so removing the first match removes the entry). -/
def eraseKey (m : List (List Char × Nat)) (k : List Char) : List (List Char × Nat) :=
  match m with
  | [] => []
  | (k₀, v) :: t => if k₀ = k then t else (k₀, v) :: eraseKey t k

/-- Ascending insertion by `Pair.Value`, one conforming implementation
of the comparison sort `sort.Sort(p)` with
`Less(i, j) = p[i].Value < p[j].Value` (Go's sort is unstable; the
claims are only evaluated at inputs whose sorted order is unique). -/
def insertByValue (p : List Char × Nat) :
    List (List Char × Nat) → List (List Char × Nat)
  | [] => [p]
  | q :: t => if p.2 ≤ q.2 then p :: q :: t else q :: insertByValue p t

/-- Sort by `Value` ascending (insertion sort). -/
def sortByValue : List (List Char × Nat) → List (List Char × Nat)
  | [] => []
  | p :: t => insertByValue p (sortByValue t)

/-- sortMapByValue from `src/workers.go`, taking the map's iteration
order as the list `entries`.  Faithful to the source, including the
loop that writes every entry to slot 0 because `i` is never
incremented:

```
p := make(PairList, len(m))
i := 0
for k, v := range m {
    p[i] = Pair{k, v}
}
sort.Sort(p)
```

`make(PairList, n)` yields `n` zero pairs `{Key: "", Value: 0}`. -/
def sortMapByValue (entries : List (List Char × Nat)) : List (List Char × Nat) :=
  let p₀ := List.replicate entries.length (([] : List Char), 0)
  let p := entries.foldl (fun acc kv => acc.set 0 kv) p₀
  sortByValue p

/-- Aggregation state of `StatsWorker`: total hits, the 6-slot
status-class array (`make([]int, 6)`), and the section map. -/
structure StatsState where
  totalHits : Nat
  statusHits : List Nat
  sectionHits : List (List Char × Nat)
  deriving Repr, DecidableEq

/-- Initial `StatsWorker` state built by `NewStatsWorker`. -/
def initStats : StatsState :=
  { totalHits := 0
    statusHits := List.replicate 6 0
    sectionHits := [] }

/-- Event branch (`case hit := <-s.in`) of the `NewStatsWorker` loop:
bump the section count, bump `statusHits[status/100]` when that index
is within `0 ≤ idx < len(statusHits)`, bump `totalHits`.  Go's integer
division truncates toward zero, as does `Int.tdiv`. -/
def observe (s : StatsState) (h : Hit) : StatsState :=
  let skey := extractSection h.uri
  let cls := Int.tdiv h.status 100
  { totalHits := s.totalHits + 1
    statusHits :=
      if 0 ≤ cls ∧ cls < (s.statusHits.length : Int) then
        s.statusHits.set cls.toNat (s.statusHits.getD cls.toNat 0 + 1)
      else s.statusHits
    sectionHits := incrKey s.sectionHits skey }

/-- One emitted statistics line, one constructor per `fmt.Sprintf`
template in the tick branch of `NewStatsWorker`, carrying the
interpolated values:
`sectionLine k v` for `"'%s' section: %d hits"`,
`statusClassLine n v` for `"'%dxx': %d hits"`,
`otherLine v` for `"'other': %d hits"`,
`totalLine v interval` for `"total: %d hits (%.02f/sec)"` (the rate is
`v / interval`, determined by the two carried values). -/
inductive Line where
  | sectionLine (key : List Char) (count : Nat)
  | statusClassLine (n : Nat) (count : Nat)
  | otherLine (count : Nat)
  | totalLine (count : Nat) (interval : Nat)
  deriving Repr, DecidableEq

/-- Tick branch (`case <-ticker.C`) of the `NewStatsWorker` loop.
Faithful to the source order of operations:

* section lines from `sortMapByValue(s.sectionHits)`, deleting each
  emitted `Key` from the map;
* `for i, v := range s.statusHits[1:]` emits the `1xx`–`5xx` lines
  reading slots 1–5 (each slot read before any write can touch it) and
  zeroes `s.statusHits[i]`, i.e. slots 0–4 — slot 5 is never zeroed
  and slot 0 is zeroed before the next line reads it;
* the `other` line then reads the already-zeroed `s.statusHits[0]`,
  which is zeroed (again);
* the total line, then `totalHits = 0`. -/
def statsTick (s : StatsState) (interval : Nat) : List Line × StatsState :=
  let pairs := sortMapByValue s.sectionHits
  let secPart := pairs.foldl
    (fun (acc : List Line × List (List Char × Nat)) p =>
      (acc.1 ++ [Line.sectionLine p.1 p.2], eraseKey acc.2 p.1))
    ([], s.sectionHits)
  let statusLines := (List.range 5).map
    (fun i => Line.statusClassLine (i + 1) (s.statusHits.getD (i + 1) 0))
  let statusHits₁ := (List.range 5).foldl (fun b i => b.set i 0) s.statusHits
  let other := Line.otherLine (statusHits₁.getD 0 0)
  let statusHits₂ := statusHits₁.set 0 0
  (secPart.1 ++ statusLines ++ [other, Line.totalLine s.totalHits interval],
   { totalHits := 0, statusHits := statusHits₂, sectionHits := secPart.2 })

/-! ### AlarmWorker (`src/workers.go`) -/

/-- One emitted alert, one constructor per `fmt.Sprintf` template in
the tick branch of `NewAlarmWorker`, carrying the interpolated hit
count (the wall-clock timestamp in the text is not modelled):
`highTraffic s` for `"High traffic generated an alert - hits = %d,
triggered at %s"`, `backToNormal s` for `"Traffic went back to normal -
hits = %d, triggered at %s"`. -/
inductive Alert where
  | highTraffic (hits : Int)
  | backToNormal (hits : Int)
  deriving Repr, DecidableEq

/-- Kind of an alert (`true` for the high-traffic alert). -/
def Alert.isHigh : Alert → Bool
  | .highTraffic _ => true
  | .backToNormal _ => false

/-- Tick branch (`case <-ticker.C`) of the `NewAlarmWorker` loop,
applied to the already-computed window sum: emit the high-traffic
alert and set `triggered` when not triggered and `sum >= threshold`;
emit the back-to-normal alert and clear `triggered` when triggered and
`sum < threshold`; otherwise emit nothing and keep the state. -/
def alarmTick (triggered : Bool) (sum threshold : Int) : Option Alert × Bool :=
  if triggered = false ∧ threshold ≤ sum then (some (.highTraffic sum), true)
  else if triggered = true ∧ sum < threshold then (some (.backToNormal sum), false)
  else (none, triggered)

/-- A run of alarm ticks over a list of window sums: the emitted alerts
in order, and the final `triggered` state. -/
def alarmRun (triggered : Bool) (threshold : Int) : List Int → List Alert × Bool
  | [] => ([], triggered)
  | s :: rest =>
    let step := alarmTick triggered s threshold
    let tail := alarmRun step.2 threshold rest
    (step.1.toList ++ tail.1, tail.2)

/-- AlarmWorker state from `src/workers.go` (channels and logger are
interaction points, not state). -/
structure AlarmWorker where
  counter : CircularCounter
  threshold : Int
  triggered : Bool
  deriving Repr, DecidableEq

/-- NewAlarmWorker from `src/workers.go`: builds the counter with the
given window and starts non-triggered.  Like `NewCircularCounter`, it
performs no validation of `window` or `threshold`. -/
def NewAlarmWorker (window : Nat) (threshold : Int) (now : Nat) : AlarmWorker :=
  { counter := NewCircularCounter window now
    threshold := threshold
    triggered := false }

/-- Go slice allocation `make([]int, n)` with an `int` length: Go
panics (`makeslice: len out of range`) when `n` is negative — modelled
as `none` — and otherwise yields `n` zeroed elements. -/
def makeIntSlice (n : Int) : Option (List Int) :=
  if n < 0 then none else some (List.replicate n.toNat 0)

/-- NewCircularCounter over Go's `int` window, as the `-w` flag value
reaches it in `src/main.go`: the only way construction can fail is the
`make([]int, window)` allocation panic on a negative window; there is
no validation and no error return.  `NewCircularCounter` above is its
restriction to nonnegative windows. -/
def NewCircularCounterGo (window : Int) (now : Nat) : Option CircularCounter := do
  let b ← makeIntSlice window
  return { buckets := b, currentIndex := 0, currentTime := now }

/-- NewAlarmWorker over Go's `int` window: fails exactly where the
counter allocation panics, and accepts any threshold. -/
def NewAlarmWorkerGo (window : Int) (threshold : Int) (now : Nat) : Option AlarmWorker := do
  let c ← NewCircularCounterGo window now
  return { counter := c, threshold := threshold, triggered := false }

/-! ### Dispatcher (`src/main.go`) -/

/-- Dispatch loop of `src/main.go`:

```
for hit := range hits {
    statsWorker.in <- hit
    alarmWorker.in <- hit
}
```

Each event is handed to the stats worker and then to the alarm worker
before the next event is read; the two components of the result are the
sequences delivered to the stats worker and to the alarm worker. -/
def dispatch (events : List Hit) : List Hit × List Hit :=
  events.foldl (fun acc e => (acc.1 ++ [e], acc.2 ++ [e])) ([], [])

/-! ### Concrete fixtures used by the evaluation theorems -/

/-- A hit on `/` with the given status code. -/
def hitStatus (st : Int) : Hit :=
  { method := "GET".data, uri := "/".data, status := st }

/-- A status-200 hit on the given URI. -/
def hitOn (u : List Char) : Hit :=
  { method := "GET".data, uri := u, status := 200 }

/-- Stats state after observing one hit on `/a/x` and two hits on
`/b/x`: the section map holds `a ↦ 1, b ↦ 2`. -/
def statsTwoSections : StatsState :=
  observe (observe (observe initStats (hitOn "/a/x".data)) (hitOn "/b/x".data))
    (hitOn "/b/x".data)

/-- Stats state after observing one status-500 hit: slot 5 (`5xx`)
holds 1. -/
def statsOne500 : StatsState :=
  observe initStats (hitStatus 500)

/-! ## Theorems -/

/-- Replay of the repository's own `TestCircularCounterSum` (window
120, fake clock), checking the embedding against the behaviour the test
suite pins down. -/
theorem circular_counter_test_replay :
    ((NewCircularCounter 120 0).Sum 0).1 = 0 ∧
    (((NewCircularCounter 120 0).Add 1 0).Sum 0).1 = 1 ∧
    ((((NewCircularCounter 120 0).Add 1 0).Add 2 (20 * nanosPerSecond)).Sum
        (20 * nanosPerSecond)).1 = 3 ∧
    (((((NewCircularCounter 120 0).Add 1 0).Add 2 (20 * nanosPerSecond)).Add 3
        (120 * nanosPerSecond)).Sum (120 * nanosPerSecond)).1 = 5 ∧
    (((((NewCircularCounter 120 0).Add 1 0).Add 2 (20 * nanosPerSecond)).Add 3
        (120 * nanosPerSecond)).Sum (200 * nanosPerSecond)).1 = 3 ∧
    (((((NewCircularCounter 120 0).Add 1 0).Add 2 (20 * nanosPerSecond)).Add 3
        (120 * nanosPerSecond)).Sum (1000 * nanosPerSecond)).1 = 0 := by
  decide

/-- Claim C1 (code bug): on a window-2 counter seeded at time 0, after
`Add(5)` and advancing the clock by `d = 1 < W = 2` seconds, `Sum()`
returns 0, not the 5 the claim (and spec §8) requires: the zeroing loop
`for i := start; i <= start+steps; i++` runs `steps + 1` times and also
clears the bucket just past the new cursor — here the bucket holding
the 5.  At `d = 0` the value is still visible, confirming the failure
is the boundary off-by-one. -/
theorem forward_overclear_eval :
    (((NewCircularCounter 2 0).Add 5 0).Sum nanosPerSecond).1 = 0 ∧
    (((NewCircularCounter 2 0).Add 5 0).Sum 0).1 = 5 ∧
    (((NewCircularCounter 2 0).Add 5 0).Forward nanosPerSecond).buckets = [0, 0] := by
  decide

/-- Claim C2 (code bug): with sections `a ↦ 1, b ↦ 2` in the map, the
tick emits `'' section: 0 hits` followed by `'b' section: 2 hits` —
not one line per section with its count — and leaves `a ↦ 1` in the
map, because `sortMapByValue` never increments `i` and so returns
`[{"", 0}, {last-iterated entry}]`. -/
theorem tick_sections_bug_eval :
    (statsTick statsTwoSections 10).1
      = [Line.sectionLine [] 0, Line.sectionLine "b".data 2,
         Line.statusClassLine 1 0, Line.statusClassLine 2 3,
         Line.statusClassLine 3 0, Line.statusClassLine 4 0,
         Line.statusClassLine 5 0, Line.otherLine 0,
         Line.totalLine 3 10] ∧
    (statsTick statsTwoSections 10).2.sectionHits = [("a".data, 1)] := by
  decide

/-- Claim C3 (code bug): after observing one status-500 hit and
ticking, slot 5 (`5xx`) still reads 1 — the reset loop writes
`s.statusHits[i] = 0` while ranging over `s.statusHits[1:]`, zeroing
slots 0–4 and never slot 5 — so a second tick with no events in
between reports `'5xx': 1 hits` instead of all-zero counts. -/
theorem tick_reset_bug_eval :
    (statsTick statsOne500 10).2.statusHits = [0, 0, 0, 0, 0, 1] ∧
    (statsTick (statsTick statsOne500 10).2 10).1
      = [Line.statusClassLine 1 0, Line.statusClassLine 2 0,
         Line.statusClassLine 3 0, Line.statusClassLine 4 0,
         Line.statusClassLine 5 1, Line.otherLine 0,
         Line.totalLine 0 10] := by
  decide

/-- Folding the dispatch step over a list appends the list to both
accumulated delivery sequences. -/
theorem dispatch_foldl_eq (l : List Hit) (a b : List Hit) :
    l.foldl (fun acc e => (acc.1 ++ [e], acc.2 ++ [e])) (a, b) = (a ++ l, b ++ l) := by
  induction l generalizing a b with
  | nil => simp
  | cons e t ih => simp [ih]

/-- Each observed hit adds exactly one to `totalHits`. -/
theorem foldl_observe_totalHits (l : List Hit) (s : StatsState) :
    (l.foldl observe s).totalHits = s.totalHits + l.length := by
  induction l generalizing s with
  | nil => simp
  | cons e t ih =>
    have h1 : (observe s e).totalHits = s.totalHits + 1 := rfl
    simp [List.foldl_cons, ih, h1]
    omega

/-- Claim C7 (confirmed): the dispatch loop delivers every event to
both aggregators, in the order received — both delivered sequences
equal the input sequence, so each aggregator observes exactly `N`
events (witnessed by `totalHits` for the stats aggregator). -/
theorem dispatch_no_event_loss (events : List Hit) :
    (dispatch events).1 = events ∧
    (dispatch events).2 = events ∧
    (dispatch events).1.length = events.length ∧
    (dispatch events).2.length = events.length ∧
    ((dispatch events).1.foldl observe initStats).totalHits = events.length := by
  unfold dispatch
  rw [dispatch_foldl_eq]
  simp [foldl_observe_totalHits, initStats]

/-- A counter whose last-advance time already equals the clock reading
is left untouched by `Forward` (the `steps <= 0` early return). -/
theorem Forward_at_currentTime (c : CircularCounter) (now : Nat)
    (h : c.currentTime = now) : c.Forward now = c := by
  unfold CircularCounter.Forward
  simp [h]

/-- `Forward` either leaves the counter untouched or stamps it with the
clock reading. -/
theorem Forward_currentTime (c : CircularCounter) (now : Nat) :
    c.Forward now = c ∨ (c.Forward now).currentTime = now := by
  unfold CircularCounter.Forward
  by_cases h : (now - c.currentTime) / nanosPerSecond = 0
  · left; simp [h]
  · right; simp [h]

/-- `Forward` is idempotent at a fixed clock reading. -/
theorem Forward_idem (c : CircularCounter) (now : Nat) :
    (c.Forward now).Forward now = c.Forward now := by
  rcases Forward_currentTime c now with h | h
  · rw [h, h]
  · exact Forward_at_currentTime _ _ h

/-- Claim C9 (confirmed): `Sum` is non-destructive and `Forward` is
idempotent within the same second.  With the clock held fixed (the
monotonic-clock hypothesis `c.currentTime ≤ now` records that the
reading is not in the counter's past), a second `Sum` call returns the
same value and the same state as the first, and a second `Forward` is a
no-op. -/
theorem sum_nondestructive (c : CircularCounter) (now : Nat)
    (_mono : c.currentTime ≤ now) :
    ((c.Sum now).2).Sum now = c.Sum now ∧
    ((c.Sum now).2).Forward now = (c.Sum now).2 ∧
    (c.Forward now).Forward now = c.Forward now := by
  refine ⟨?_, Forward_idem c now, Forward_idem c now⟩
  unfold CircularCounter.Sum
  simp [Forward_idem]

/-- Witness for `sum_nondestructive` at a concrete counter and clock
reading. -/
theorem sum_nondestructive_witness :
    ((NewCircularCounter 3 0).Add 4 0).currentTime ≤ nanosPerSecond ∧
    ((((NewCircularCounter 3 0).Add 4 0).Sum nanosPerSecond).2).Sum nanosPerSecond
      = ((NewCircularCounter 3 0).Add 4 0).Sum nanosPerSecond :=
  ⟨by decide, (sum_nondestructive ((NewCircularCounter 3 0).Add 4 0) nanosPerSecond
      (by decide)).1⟩

/-- The zeroing fold preserves the bucket count. -/
theorem zeroFold_length (is : List Nat) (b : List Int) :
    (is.foldl (fun b i => b.set (i % b.length) 0) b).length = b.length := by
  induction is generalizing b with
  | nil => rfl
  | cons i t ih =>
    rw [List.foldl_cons, ih, List.length_set]

/-- With at least one bucket, the checked zeroing fold succeeds and
agrees with the total one. -/
theorem zeroFold_checked_eq (is : List Nat) (b : List Int) (hb : b.length ≠ 0) :
    (is.foldlM (fun b i => do
        let j ← modChecked i b.length
        setChecked b j 0) b)
      = some (is.foldl (fun b i => b.set (i % b.length) 0) b) := by
  induction is generalizing b with
  | nil => rfl
  | cons i t ih =>
    have hpos : 0 < b.length := Nat.pos_of_ne_zero hb
    have hj : modChecked i b.length = some (i % b.length) := by
      simp [modChecked, hb]
    have hset : setChecked b (i % b.length) 0 = some (b.set (i % b.length) 0) := by
      simp [setChecked, Nat.mod_lt _ hpos]
    have hlen : (b.set (i % b.length) 0).length ≠ 0 := by
      rw [List.length_set]; exact hb
    rw [List.foldlM_cons, List.foldl_cons]
    simp only [hj, Option.bind_eq_bind, Option.some_bind, hset]
    exact ih _ hlen

/-- `zeroLoopChecked` succeeds on nonempty buckets. -/
theorem zeroLoopChecked_eq (b : List Int) (start steps : Nat) (hb : b.length ≠ 0) :
    zeroLoopChecked b start steps = some (zeroLoop b start steps) :=
  zeroFold_checked_eq _ b hb

/-- `zeroLoop` preserves the bucket count. -/
theorem zeroLoop_length (b : List Int) (start steps : Nat) :
    (zeroLoop b start steps).length = b.length :=
  zeroFold_length _ b

/-- `Forward` preserves the bucket count. -/
theorem Forward_length (c : CircularCounter) (now : Nat) :
    (c.Forward now).buckets.length = c.buckets.length := by
  unfold CircularCounter.Forward
  by_cases h : (now - c.currentTime) / nanosPerSecond = 0
  · simp [h]
  · simp [h, zeroLoop_length]

/-- `Forward` preserves well-formedness. -/
theorem Forward_wf (c : CircularCounter) (now : Nat) (h : c.wf) :
    (c.Forward now).wf := by
  obtain ⟨hne, hidx⟩ := h
  have hpos : 0 < c.buckets.length := List.length_pos.mpr hne
  constructor
  · rw [← List.length_pos, Forward_length]; exact hpos
  · unfold CircularCounter.Forward
    by_cases hs : (now - c.currentTime) / nanosPerSecond = 0
    · simpa [hs] using hidx
    · simp only [hs, if_false]
      rw [zeroLoop_length]
      exact Nat.mod_lt _ hpos

/-- With a well-formed counter, the checked `Forward` succeeds and
agrees with the total one. -/
theorem ForwardChecked_eq (c : CircularCounter) (now : Nat) (h : c.wf) :
    c.ForwardChecked now = some (c.Forward now) := by
  obtain ⟨hne, _⟩ := h
  have hb : c.buckets.length ≠ 0 := by
    simpa [List.length_eq_zero] using hne
  unfold CircularCounter.ForwardChecked CircularCounter.Forward
  by_cases hs : (now - c.currentTime) / nanosPerSecond = 0
  · simp [hs]
  · simp [hs, zeroLoopChecked_eq _ _ _ hb, modChecked, hb, zeroLoop_length]

/-- `Add` preserves well-formedness. -/
theorem Add_wf (c : CircularCounter) (v : Int) (now : Nat) (h : c.wf) :
    (c.Add v now).wf := by
  have hf := Forward_wf c now h
  obtain ⟨hne, hidx⟩ := hf
  constructor
  · unfold CircularCounter.Add
    simpa [← List.length_pos, List.length_set] using List.length_pos.mpr hne
  · unfold CircularCounter.Add
    simpa [List.length_set] using hidx

/-- With a well-formed counter, the checked `Add` succeeds and agrees
with the total one. -/
theorem AddChecked_eq (c : CircularCounter) (v : Int) (now : Nat) (h : c.wf) :
    c.AddChecked v now = some (c.Add v now) := by
  have hf := Forward_wf c now h
  obtain ⟨hne, hidx⟩ := hf
  unfold CircularCounter.AddChecked CircularCounter.Add
  rw [ForwardChecked_eq c now h]
  have hget : getChecked (c.Forward now).buckets (c.Forward now).currentIndex
      = some ((c.Forward now).buckets.getD (c.Forward now).currentIndex 0) := by
    unfold getChecked
    rw [List.get?_eq_getElem?, List.getElem?_eq_getElem hidx,
      List.getD_eq_getElem?_getD, List.getElem?_eq_getElem hidx]
    rfl
  simp [hget, setChecked, hidx]

/-- With a well-formed counter, the checked `Sum` succeeds and agrees
with the total one. -/
theorem SumChecked_eq (c : CircularCounter) (now : Nat) (h : c.wf) :
    c.SumChecked now = some (c.Sum now) := by
  unfold CircularCounter.SumChecked CircularCounter.Sum
  rw [ForwardChecked_eq c now h]
  rfl

/-- Claim C10 (confirmed): under the window ≥ 1 precondition every
bucket access in `Forward`, `Add` and `Sum` is in range and every
modulo has a nonzero divisor: on well-formed states (nonempty buckets,
cursor in range — established by `NewCircularCounter` for `window ≥ 1`
and preserved by every operation) the fully bounds-checked versions of
the three operations succeed and agree with the total ones. -/
theorem counter_ops_total (c : CircularCounter) (v : Int) (now w : Nat)
    (h : c.wf) :
    c.ForwardChecked now = some (c.Forward now) ∧ (c.Forward now).wf ∧
    c.AddChecked v now = some (c.Add v now) ∧ (c.Add v now).wf ∧
    c.SumChecked now = some (c.Sum now) ∧ ((c.Sum now).2).wf ∧
    (1 ≤ w → (NewCircularCounter w now).wf) := by
  refine ⟨ForwardChecked_eq c now h, Forward_wf c now h,
    AddChecked_eq c v now h, Add_wf c v now h,
    SumChecked_eq c now h, ?_, ?_⟩
  · unfold CircularCounter.Sum
    exact Forward_wf c now h
  · intro hw
    constructor
    · have : (NewCircularCounter w now).buckets.length = w := by
        simp [NewCircularCounter]
      rw [← List.length_pos, this]; omega
    · simpa [NewCircularCounter] using hw

/-- Witness for `counter_ops_total` at a concrete well-formed counter. -/
theorem counter_ops_total_witness :
    (NewCircularCounter 3 0).wf ∧
    (NewCircularCounter 3 0).AddChecked 2 (2 * nanosPerSecond)
      = some ((NewCircularCounter 3 0).Add 2 (2 * nanosPerSecond)) :=
  ⟨by decide, (counter_ops_total (NewCircularCounter 3 0) 2 (2 * nanosPerSecond) 1
      (by decide)).2.2.1⟩

/-- The first alert an alarm run emits from state `t` has the opposite
kind: non-emitting ticks leave the state unchanged, so the next
emission is always a transition out of `t`. -/
theorem alarmRun_head_kind (thr : Int) (sums : List Int) :
    ∀ (t : Bool) (a : Alert), ((alarmRun t thr sums).1).head? = some a →
      a.isHigh = !t := by
  induction sums with
  | nil =>
    intro t a h
    simp [alarmRun] at h
  | cons s rest ih =>
    intro t a h
    unfold alarmRun at h
    by_cases h1 : t = false ∧ thr ≤ s
    · obtain ⟨ht, hs⟩ := h1
      subst ht
      have htick : alarmTick false s thr = (some (Alert.highTraffic s), true) := by
        simp [alarmTick, hs]
      rw [htick] at h
      simp only [Option.toList_some, List.singleton_append, List.head?_cons,
        Option.some.injEq] at h
      subst h
      rfl
    · by_cases h2 : t = true ∧ s < thr
      · obtain ⟨ht, hs⟩ := h2
        subst ht
        have htick : alarmTick true s thr = (some (Alert.backToNormal s), false) := by
          simp [alarmTick, hs]
        rw [htick] at h
        simp only [Option.toList_some, List.singleton_append, List.head?_cons,
          Option.some.injEq] at h
        subst h
        rfl
      · have htick : alarmTick t s thr = (none, t) := by
          cases t
          · have hs : ¬ thr ≤ s := fun hh => h1 ⟨rfl, hh⟩
            simp [alarmTick, hs]
          · have hs : ¬ s < thr := fun hh => h2 ⟨rfl, hh⟩
            simp [alarmTick, hs]
        rw [htick] at h
        simp only [Option.toList_none, List.nil_append] at h
        exact ih t a h

/-- Alerts emitted by a run alternate in kind. -/
theorem alarmRun_alternates (thr : Int) (sums : List Int) :
    ∀ t : Bool,
      List.Chain' (fun a b => a.isHigh ≠ b.isHigh) (alarmRun t thr sums).1 := by
  induction sums with
  | nil => intro t; simp [alarmRun]
  | cons s rest ih =>
    intro t
    unfold alarmRun
    by_cases h1 : t = false ∧ thr ≤ s
    · obtain ⟨ht, hs⟩ := h1
      subst ht
      have htick : alarmTick false s thr = (some (Alert.highTraffic s), true) := by
        simp [alarmTick, hs]
      rw [htick]
      simp only [Option.toList_some, List.singleton_append]
      rw [List.chain'_cons']
      refine ⟨?_, ih true⟩
      intro b hb
      have hk := alarmRun_head_kind thr rest true b hb
      simpa [Alert.isHigh] using hk
    · by_cases h2 : t = true ∧ s < thr
      · obtain ⟨ht, hs⟩ := h2
        subst ht
        have htick : alarmTick true s thr = (some (Alert.backToNormal s), false) := by
          simp [alarmTick, hs]
        rw [htick]
        simp only [Option.toList_some, List.singleton_append]
        rw [List.chain'_cons']
        refine ⟨?_, ih false⟩
        intro b hb
        have hk := alarmRun_head_kind thr rest false b hb
        simpa [Alert.isHigh] using hk
      · have htick : alarmTick t s thr = (none, t) := by
          cases t
          · have hs : ¬ thr ≤ s := fun hh => h1 ⟨rfl, hh⟩
            simp [alarmTick, hs]
          · have hs : ¬ s < thr := fun hh => h2 ⟨rfl, hh⟩
            simp [alarmTick, hs]
        rw [htick]
        simp only [Option.toList_none, List.nil_append]
        exact ih t

/-- Claim C5 (confirmed): the alarm detector is edge-triggered.  A tick
emits the high-traffic alert exactly when the state is Normal
(`triggered = false`) and the sum reaches the threshold, emits the
back-to-normal alert exactly when the state is Alarmed and the sum is
below the threshold, and otherwise emits nothing; the new state is
Alarmed exactly when the sum is at or above the threshold.
Consequently, over any run of ticks, emitted alerts strictly alternate
in kind — never a repeated alert while the sum stays on the same side
of the threshold. -/
theorem alarm_edge_triggered :
    (∀ (t : Bool) (sum thr : Int),
      ((alarmTick t sum thr).1 = some (Alert.highTraffic sum) ↔
        t = false ∧ thr ≤ sum) ∧
      ((alarmTick t sum thr).1 = some (Alert.backToNormal sum) ↔
        t = true ∧ sum < thr) ∧
      ((alarmTick t sum thr).1 = none ↔
        (t = false ∧ sum < thr) ∨ (t = true ∧ thr ≤ sum)) ∧
      (alarmTick t sum thr).2 = decide (thr ≤ sum)) ∧
    (∀ (t : Bool) (thr : Int) (sums : List Int),
      List.Chain' (fun a b => a.isHigh ≠ b.isHigh) (alarmRun t thr sums).1) := by
  constructor
  · intro t sum thr
    by_cases hle : thr ≤ sum
    · cases t <;> simp [alarmTick, hle, not_lt.mpr hle]
    · cases t <;> simp [alarmTick, hle, not_le.mp hle]
  · intro t thr sums
    exact alarmRun_alternates thr sums t

/-- Witness for `alarm_edge_triggered`: a concrete run with threshold 2
whose sums cross the threshold twice emits high, back-to-normal, high,
in that alternating order. -/
theorem alarm_edge_triggered_witness :
    (alarmTick false 2 2).1 = some (Alert.highTraffic 2) ∧
    (alarmRun false 2 [2, 3, 1, 0, 5]).1
      = [Alert.highTraffic 2, Alert.backToNormal 1, Alert.highTraffic 5] ∧
    List.Chain' (fun a b => a.isHigh ≠ b.isHigh)
      (alarmRun false 2 [2, 3, 1, 0, 5]).1 :=
  ⟨((alarm_edge_triggered.1 false 2 2).1).mpr (by decide), by decide,
    alarm_edge_triggered.2 false 2 [2, 3, 1, 0, 5]⟩

/-- `takeWhile` over a list that satisfies the predicate up to a first
failing element returns exactly that prefix. -/
theorem takeWhile_app (p : Char → Bool) (seg : List Char) (a : Char)
    (rest : List Char) (hseg : ∀ ch ∈ seg, p ch = true) (ha : p a = false) :
    (seg ++ a :: rest).takeWhile p = seg := by
  induction seg with
  | nil => simp [List.takeWhile_cons, ha]
  | cons c t ih =>
    have hc : p c = true := hseg c (List.mem_cons_self c t)
    simp only [List.cons_append, List.takeWhile_cons, hc, if_true]
    rw [ih (fun ch hch => hseg ch (List.mem_cons_of_mem c hch))]

/-- Every element of `takeWhile p l` satisfies `p`. -/
theorem mem_takeWhile (p : Char → Bool) :
    ∀ (l : List Char) (c : Char), c ∈ l.takeWhile p → p c = true := by
  intro l
  induction l with
  | nil => intro c h; simp at h
  | cons a t ih =>
    intro c h
    rw [List.takeWhile_cons] at h
    by_cases hp : p a = true
    · rw [if_pos hp] at h
      rcases List.mem_cons.mp h with h | h
      · subst h; exact hp
      · exact ih c h
    · rw [if_neg hp] at h
      simp at h

/-- `dropWhile p l` is empty or starts with an element failing `p`. -/
theorem dropWhile_first_false (p : Char → Bool) :
    ∀ l : List Char, l.dropWhile p = [] ∨
      ∃ a t, l.dropWhile p = a :: t ∧ p a = false := by
  intro l
  induction l with
  | nil => left; rfl
  | cons c t ih =>
    rw [List.dropWhile_cons]
    by_cases hp : p c = true
    · rw [if_pos hp]; exact ih
    · rw [if_neg hp]
      right
      exact ⟨c, t, rfl, by simpa using hp⟩

/-- On a URI of the matching shape — a leading `/`, a nonempty
slash-free segment, another `/` — the extracted section is that
segment. -/
theorem extractSection_shape (seg rest : List Char) (hne : seg ≠ [])
    (hfree : ∀ c ∈ seg, c ≠ '/') :
    extractSection ('/' :: (seg ++ '/' :: rest)) = seg := by
  have hseg : (seg ++ '/' :: rest).takeWhile (fun ch => ch != '/') = seg :=
    takeWhile_app _ seg '/' rest (fun ch hch => by simpa using hfree ch hch)
      (by simp)
  have hlt : seg.length < (seg ++ '/' :: rest).length := by
    simp [List.length_append]
  simp [extractSection, hseg, hne, hlt]

/-- On a URI not of the matching shape, the extracted section is
`"/"`. -/
theorem extractSection_not_shape (uri : List Char)
    (hshape : ¬ ∃ s r, s ≠ [] ∧ (∀ c ∈ s, c ≠ '/') ∧
      uri = '/' :: (s ++ '/' :: r)) :
    extractSection uri = ['/'] := by
  cases uri with
  | nil => rfl
  | cons c rest =>
    by_cases hc : c = '/'
    · subst hc
      by_cases hcond : (rest.takeWhile (fun ch => ch != '/')) ≠ [] ∧
          (rest.takeWhile (fun ch => ch != '/')).length < rest.length
      · exfalso
        apply hshape
        obtain ⟨hne, hlt⟩ := hcond
        have hsplit : rest.takeWhile (fun ch => ch != '/')
            ++ rest.dropWhile (fun ch => ch != '/') = rest :=
          List.takeWhile_append_dropWhile (fun ch => ch != '/') rest
        have hlen : rest.length
            = (rest.takeWhile (fun ch => ch != '/')).length
              + (rest.dropWhile (fun ch => ch != '/')).length := by
          conv_lhs => rw [← hsplit]
          rw [List.length_append]
        rcases dropWhile_first_false (fun ch => ch != '/') rest with hdw | hdw
        · rw [hdw] at hlen
          simp at hlen
          omega
        · obtain ⟨a, tl, hdw, hpa⟩ := hdw
          have ha : a = '/' := by simpa using hpa
          refine ⟨rest.takeWhile (fun ch => ch != '/'), tl, hne, ?_, ?_⟩
          · intro ch hch
            have := mem_takeWhile _ rest ch hch
            simpa using this
          · have hrest : rest = rest.takeWhile (fun ch => ch != '/') ++ '/' :: tl := by
              conv_lhs => rw [← hsplit]
              rw [hdw, ha]
            exact congrArg (fun l => '/' :: l) hrest
      · have hred : extractSection ('/' :: rest)
            = if (rest.takeWhile (fun ch => ch != '/')) ≠ [] ∧
                  (rest.takeWhile (fun ch => ch != '/')).length < rest.length then
                rest.takeWhile (fun ch => ch != '/')
              else ['/'] := rfl
        rw [hred, if_neg hcond]
    · have hred : extractSection (c :: rest)
          = if c = '/' then
              if (rest.takeWhile (fun ch => ch != '/')) ≠ [] ∧
                  (rest.takeWhile (fun ch => ch != '/')).length < rest.length then
                rest.takeWhile (fun ch => ch != '/')
              else ['/']
            else ['/'] := rfl
      rw [hred, if_neg hc]

/-- Claim C8 (confirmed): the section key is the first path segment —
the text between the first two `/` characters when the URI has the
shape `/<nonempty slash-free segment>/...` — and any URI not of that
shape (such as `/`, or `/api` with no second slash) yields the section
key `/`.  Concretely, `/api/widgets/123` yields `api`. -/
theorem section_extraction (seg rest uri : List Char) (hne : seg ≠ [])
    (hfree : ∀ c ∈ seg, c ≠ '/')
    (hshape : ¬ ∃ s r, s ≠ [] ∧ (∀ c ∈ s, c ≠ '/') ∧
      uri = '/' :: (s ++ '/' :: r)) :
    extractSection ('/' :: (seg ++ '/' :: rest)) = seg ∧
    extractSection uri = ['/'] ∧
    extractSection "/api/widgets/123".data = "api".data ∧
    extractSection "/".data = ['/'] ∧
    extractSection "/api".data = ['/'] :=
  ⟨extractSection_shape seg rest hne hfree, extractSection_not_shape uri hshape,
    by decide, by decide, by decide⟩

/-- Witness for `section_extraction` at `/api/widgets/123` (shape
hypotheses) and `/` (non-shape hypothesis). -/
theorem section_extraction_witness :
    ("api".data ≠ ([] : List Char)) ∧
    extractSection ('/' :: ("api".data ++ '/' :: "widgets/123".data))
      = "api".data :=
  ⟨by decide,
    (section_extraction "api".data "widgets/123".data "/".data (by decide)
      (by decide)
      (by
        rintro ⟨s, r, _, _, heq⟩
        have hlen := congrArg List.length heq
        simp [List.length_append] at hlen)).1⟩

/-- Claim C4 counterexample: a status of 999 (class 9, outside the
0–5 guard) increments no bucket at all — the `other` slot stays 0 —
and, even after a status-50 hit has put 1 into the `other` slot, the
next tick's `other` line reports 0, because the tick loop zeroes slot 0
before that line reads it. -/
theorem status_999_not_other_eval :
    (observe initStats (hitStatus 999)).statusHits = List.replicate 6 0 ∧
    (observe initStats (hitStatus 50)).statusHits = [1, 0, 0, 0, 0, 0] ∧
    (statsTick (observe initStats (hitStatus 50)) 10).1
      = [Line.sectionLine "/".data 1,
         Line.statusClassLine 1 0, Line.statusClassLine 2 0,
         Line.statusClassLine 3 0, Line.statusClassLine 4 0,
         Line.statusClassLine 5 0, Line.otherLine 0,
         Line.totalLine 1 10] := by
  decide

/-- Claim C4 as amended: status 404 (class 4) and every status of class
1–5 increments its class bucket; a status of class 0 (statuses 0–99,
and negatives above -100 under Go's truncated division) increments the
`other` slot; a status whose class lies outside 0–5 (such as 999)
increments no bucket; and the `other` line emitted at a tick always
reports 0. -/
theorem status_bucketing (s : StatsState) (hit : Hit) (iv : Nat)
    (h6 : s.statusHits.length = 6) :
    (∀ c : Nat, 1 ≤ c → c ≤ 5 → Int.tdiv hit.status 100 = (c : Int) →
      (observe s hit).statusHits.getD c 0 = s.statusHits.getD c 0 + 1) ∧
    (Int.tdiv hit.status 100 = 0 →
      (observe s hit).statusHits.getD 0 0 = s.statusHits.getD 0 0 + 1) ∧
    ((Int.tdiv hit.status 100 < 0 ∨ 5 < Int.tdiv hit.status 100) →
      (observe s hit).statusHits = s.statusHits) ∧
    (∃ pre, (statsTick s iv).1
      = pre ++ [Line.otherLine 0, Line.totalLine s.totalHits iv]) := by
  obtain ⟨tot, sh, sec⟩ := s
  simp only at h6 ⊢
  rcases sh with _ | ⟨a0, _ | ⟨a1, _ | ⟨a2, _ | ⟨a3, _ | ⟨a4, _ | ⟨a5, _ | ⟨a6, tl⟩⟩⟩⟩⟩⟩⟩ <;>
    simp only [List.length_cons, List.length_nil] at h6 <;> try omega
  refine ⟨?_, ?_, ?_, ?_⟩
  · intro c h1 h5 hcls
    interval_cases c <;>
      simp [observe, hcls]
  · intro hcls
    simp [observe, hcls]
  · intro hout
    show (if 0 ≤ Int.tdiv hit.status 100 ∧
          Int.tdiv hit.status 100 < (([a0, a1, a2, a3, a4, a5].length : Nat) : Int) then
        _ else [a0, a1, a2, a3, a4, a5]) = [a0, a1, a2, a3, a4, a5]
    rw [if_neg]
    rintro ⟨ha, hb⟩
    simp only [List.length_cons, List.length_nil] at hb
    omega
  · exact ⟨((sortMapByValue sec).foldl
      (fun (acc : List Line × List (List Char × Nat)) p =>
        (acc.1 ++ [Line.sectionLine p.1 p.2], eraseKey acc.2 p.1))
      ([], sec)).1
        ++ (List.range 5).map
          (fun i => Line.statusClassLine (i + 1) ([a0, a1, a2, a3, a4, a5].getD (i + 1) 0)),
      rfl⟩

/-- Witness for `status_bucketing`: status 404 bumps slot 4 and status
0 bumps the `other` slot, starting from the freshly constructed
state. -/
theorem status_bucketing_witness :
    initStats.statusHits.length = 6 ∧
    (observe initStats (hitStatus 404)).statusHits.getD 4 0
      = initStats.statusHits.getD 4 0 + 1 ∧
    (observe initStats (hitStatus 0)).statusHits.getD 0 0
      = initStats.statusHits.getD 0 0 + 1 :=
  ⟨by decide,
    (status_bucketing initStats (hitStatus 404) 10 (by decide)).1 4 (by decide)
      (by decide) (by decide),
    (status_bucketing initStats (hitStatus 0) 10 (by decide)).2.1 (by decide)⟩

/-- Claim C6 counterexample: constructing with window 0 (and threshold
0, both invalid per the claim) does not fail with an
InvalidConfiguration error — a counter and a worker are created, with
zero buckets — and the failure only surfaces at first use, where the
checked `Sum` hits a modulo by zero one second later. -/
theorem construction_window_zero_eval :
    NewCircularCounterGo 0 7
      = some ({ buckets := [], currentIndex := 0, currentTime := 7 } :
          CircularCounter) ∧
    NewAlarmWorkerGo 0 0 7
      = some ({ counter := { buckets := [], currentIndex := 0, currentTime := 7 },
                threshold := 0, triggered := false } : AlarmWorker) ∧
    (NewCircularCounter 0 7).SumChecked (7 + nanosPerSecond) = none := by
  decide

/-- Claim C6 as amended: the constructors contain no
InvalidConfiguration validation and no error return.  For every
nonnegative window — including the invalid window 0 — and every
threshold, construction succeeds, yielding a fully initialized counter
(`window` zero buckets) and a non-triggered worker; a window of at
least 1 gives a well-formed counter, while window 0 gives a counter
whose `Sum` fails (modulo by zero) at its first use one second later.
The only construction-time failure is the `make([]int, window)`
allocation panic on a negative window — a runtime panic, not an
InvalidConfiguration error. -/
theorem construction_unvalidated (w : Nat) (wneg thr : Int) (now : Nat)
    (hneg : wneg < 0) :
    NewCircularCounterGo (w : Int) now = some (NewCircularCounter w now) ∧
    NewAlarmWorkerGo (w : Int) thr now = some (NewAlarmWorker w thr now) ∧
    NewCircularCounterGo wneg now = none ∧
    NewAlarmWorkerGo wneg thr now = none ∧
    (1 ≤ w → (NewCircularCounter w now).wf) ∧
    (w = 0 →
      (NewCircularCounter w now).SumChecked (now + nanosPerSecond) = none) := by
  have hcast : ¬ ((w : Int) < 0) := by
    simp
  have hok : NewCircularCounterGo (w : Int) now = some (NewCircularCounter w now) := by
    simp [NewCircularCounterGo, makeIntSlice, hcast, NewCircularCounter,
      Int.toNat_natCast]
  have hfail : NewCircularCounterGo wneg now = none := by
    simp [NewCircularCounterGo, makeIntSlice, hneg]
  refine ⟨hok, ?_, hfail, ?_, ?_, ?_⟩
  · simp [NewAlarmWorkerGo, hok, NewAlarmWorker]
  · simp [NewAlarmWorkerGo, hfail]
  · intro hw
    constructor
    · have hlen : (NewCircularCounter w now).buckets.length = w := by
        simp [NewCircularCounter]
      rw [← List.length_pos, hlen]
      omega
    · simpa [NewCircularCounter] using hw
  · rintro rfl
    have hsteps : (now + nanosPerSecond - now) / nanosPerSecond = 1 := by
      rw [Nat.add_sub_cancel_left]
      norm_num [nanosPerSecond]
    unfold CircularCounter.SumChecked CircularCounter.ForwardChecked
    simp [NewCircularCounter, hsteps, zeroLoopChecked, modChecked]
    norm_num [nanosPerSecond]

/-- Witness for `construction_unvalidated`: window 0 constructs (then
fails at first use), window 1 constructs well-formed, window -3 panics
at the allocation. -/
theorem construction_unvalidated_witness :
    ((-3 : Int) < 0) ∧
    NewCircularCounterGo 0 7 = some (NewCircularCounter 0 7) ∧
    NewCircularCounterGo (-3) 7 = none ∧
    (NewCircularCounter 1 0).wf ∧
    (NewCircularCounter 0 7).SumChecked (7 + nanosPerSecond) = none :=
  ⟨by decide,
    (construction_unvalidated 0 (-3) 0 7 (by decide)).1,
    (construction_unvalidated 0 (-3) 0 7 (by decide)).2.2.1,
    (construction_unvalidated 1 (-3) 0 0 (by decide)).2.2.2.2.1 (by decide),
    (construction_unvalidated 0 (-3) 0 7 (by decide)).2.2.2.2.2 rfl⟩

end HttpLogConsole
